import Mathlib

/-!
A shallow embedding of the rclone `doi` backend (package `backend/doi`):
DOI handle resolution, provider detection, Invenio endpoint discovery and
the per-provider file listers, translated from the Go source.  Network
calls are modelled as oracles (`Option`-valued functions supplied as
arguments); machine-level details of the Go standard library that the
backend relies on (`strings`, `path`, `net/url`, `lib/dircache`) are
modelled by small explicit Lean functions documented below.
-/

deriving instance DecidableEq for Except

namespace Doi

/-- Time values are modelled as seconds relative to the Unix epoch. -/
abbrev Time := Int

/-- `timeUnset = time.Unix(0, 0)`: the sentinel used when a modification
time is absent or fails to parse. -/
def timeUnset : Time := 0

/-- Models Go `strings.TrimLeft(s, cut)`: removes the leading characters
of `s` that belong to the character set `cut` (NOT prefix removal). -/
def goTrimLeftChars (s cut : String) : String :=
  String.mk (s.data.dropWhile (fun c => cut.data.contains c))

/-- Models Go `strings.Trim(s, cut)`: removes leading and trailing
characters of `s` that belong to the character set `cut`. -/
def goTrimChars (s cut : String) : String :=
  let l := s.data.dropWhile (fun c => cut.data.contains c)
  String.mk ((l.reverse.dropWhile (fun c => cut.data.contains c)).reverse)

/-- Models Go `strings.TrimPrefix(s, pre)`: removes `pre` from the front
of `s` when it is a prefix, otherwise returns `s` unchanged. -/
def goDropPre (s pre : String) : String :=
  if pre.data.isPrefixOf s.data then String.mk (s.data.drop pre.data.length) else s

/-- Models Go `strings.HasPrefix(s, p)`. -/
def goHasPre (s p : String) : Bool :=
  p.data.isPrefixOf s.data

/-- Models Go `strings.HasSuffix(s, p)`. -/
def goHasSuffix (s p : String) : Bool :=
  p.data.isSuffixOf s.data

/-- Lower-cases an ASCII letter; models Go `strings.ToLower` per
character (hostnames handled by the backend are ASCII). -/
def goCharToLower (c : Char) : Char :=
  if 'A' ≤ c ∧ c ≤ 'Z' then Char.ofNat (c.toNat + 32) else c

/-- Models Go `strings.ToLower` for the ASCII strings of this backend. -/
def goToLower (s : String) : String :=
  String.mk (s.data.map goCharToLower)

/-- `true` iff the string contains a slash; models
`strings.Contains(s, "/")` (a one-character needle). -/
def hasSlash (s : String) : Bool :=
  s.data.any (fun c => c == '/')

/-- Models rclone `lib/dircache.SplitPath`: splits at the LAST slash into
(directory, leaf); a string without a slash has directory `""`. -/
def splitPath (s : String) : String × String :=
  let r := s.data.reverse
  let leafR := r.takeWhile (fun c => c ≠ '/')
  let rest := r.dropWhile (fun c => c ≠ '/')
  match rest with
  | [] => ("", s)
  | _ :: ds => (String.mk ds.reverse, String.mk leafR.reverse)

/-- Splits a character list at every slash (like `strings.Split(s, "/")`
at the character level); used to model Go `path.Clean`. -/
def splitSlashes : List Char → List (List Char)
  | [] => [[]]
  | c :: rest =>
    let r := splitSlashes rest
    if c = '/' then [] :: r
    else
      match r with
      | [] => [[c]]
      | h :: t => (c :: h) :: t

/-- The segment-normalisation fold of Go `path.Clean`: drops empty and
`.` segments and resolves `..` against the accumulator (which is kept
reversed, most recent segment first). -/
def cleanFold : List String → List String → List String
  | acc, [] => acc
  | acc, seg :: rest =>
    if seg = "" ∨ seg = "." then cleanFold acc rest
    else if seg = ".." then
      match acc with
      | [] => cleanFold [".."] rest
      | a :: as_ => if a = ".." then cleanFold (seg :: a :: as_) rest else cleanFold as_ rest
    else cleanFold (seg :: acc) rest

/-- Models Go `path.Clean` (POSIX paths as used by this backend): purely
lexical simplification of a path. -/
def goPathClean (s : String) : String :=
  let segs := (splitSlashes s.data).map (fun cs => String.mk cs)
  let cleaned := (cleanFold [] segs).reverse
  if s.data.head? = some '/' then
    let c2 := cleaned.dropWhile (fun seg => seg = "..")
    if c2 = [] then "/" else "/" ++ String.intercalate "/" c2
  else
    if cleaned = [] then "." else String.intercalate "/" cleaned

/-- Models Go `path.Join(a, b)`: empty elements are skipped and the
joined string is passed through `path.Clean`; all-empty input gives
the empty string. -/
def goPathJoin (a b : String) : String :=
  let parts := [a, b].filter (fun x => x ≠ "")
  if parts = [] then "" else goPathClean (String.intercalate "/" parts)

/-- Inserts a key into a list used as a set: models adding a key to a Go
map (`dirPaths[k] = true`), with first-insertion order standing in for
the map's unspecified iteration order. -/
def insertOnce (seen : List String) (x : String) : List String :=
  if x ∈ seen then seen else seen ++ [x]

/-- A parsed URL, modelling the fields of Go `net/url.URL` that this
backend reads (scheme, host, escaped path, raw query). -/
structure URL where
  scheme : String
  host : String
  path : String
  query : String
deriving DecidableEq, Repr

/-- Models `url.URL.String()` for the URLs built by this backend. -/
def urlToString (u : URL) : String :=
  (if u.scheme = "" then "" else u.scheme ++ "://" ++ u.host) ++ u.path ++
    (if u.query = "" then "" else "?" ++ u.query)

/-- Models `base.ResolveReference(&url.URL{Path: p, RawQuery: q})` for an
absolute-path reference: scheme and host are kept, path and query are
replaced by the reference's. -/
def resolveRefPath (base : URL) (p q : String) : URL :=
  { scheme := base.scheme, host := base.host, path := p, query := q }

/-- Splits a character list at the first `://` marker (scheme separator),
used to model Go `net/url.Parse`. -/
def splitSchemeMarker : List Char → Option (List Char × List Char)
  | [] => none
  | c :: rest =>
    if c = ':' ∧ ("//".data).isPrefixOf rest then some ([], rest.drop 2)
    else
      match splitSchemeMarker rest with
      | none => none
      | some (a, b) => some (c :: a, b)

/-- Models Go `net/url.Parse` restricted to what the backend depends on:
parsing FAILS exactly when the string contains an ASCII control
character (in particular the EMPTY string parses successfully, to the
zero URL); on success the string is split into scheme, host and path.
The query component is not separated out (no listed claim reads it from
a parsed URL). -/
def goURLParse (s : String) : Option URL :=
  if s.data.any (fun c => c.toNat < 32) then none
  else some <|
    match splitSchemeMarker s.data with
    | none => { scheme := "", host := "", path := s, query := "" }
    | some (sch, rest) =>
      { scheme := String.mk sch,
        host := String.mk (rest.takeWhile (fun c => c ≠ '/')),
        path := String.mk (rest.dropWhile (fun c => c ≠ '/')),
        query := "" }

/-! ## API response types (`backend/doi/api` and the in-file Go structs) -/

/-- `api.InvenioRecordResponseLinks`. -/
structure InvenioRecordResponseLinks where
  self : String
deriving DecidableEq, Repr

/-- `api.InvenioRecordResponse`: a record exposing its canonical links. -/
structure InvenioRecordResponse where
  links : InvenioRecordResponseLinks
deriving DecidableEq, Repr

/-- `api.InvenioFilesResponseEntryLinks`. -/
structure InvenioFilesResponseEntryLinks where
  content : String
deriving DecidableEq, Repr

/-- `api.InvenioFilesResponseEntry`: one file entry of `GET endpoint/files`. -/
structure InvenioFilesResponseEntry where
  key : String
  checksum : String
  size : Int
  updated : String
  mimetype : String
  links : InvenioFilesResponseEntryLinks
deriving DecidableEq, Repr

/-- `api.InvenioFilesResponse`. -/
structure InvenioFilesResponse where
  entries : List InvenioFilesResponseEntry
deriving DecidableEq, Repr

/-- `dataverseDataFile` / `api.DataverseDataFile`: the stored file plus the
optional pre-ingest (original) metadata. -/
structure DataverseDataFile where
  id : Int
  filename : String
  contentType : String
  filesize : Int
  originalFileFormat : String
  originalFileSize : Int
  originalFileName : String
  md5 : String
deriving DecidableEq, Repr

/-- `dataverseFile`: a file record tagged with its directory label. -/
structure DataverseFile where
  directoryLabel : String
  dataFile : DataverseDataFile
deriving DecidableEq, Repr

/-- `dataverseDatasetLatestVersion`. -/
structure DataverseDatasetLatestVersion where
  lastUpdateTime : String
  files : List DataverseFile
deriving DecidableEq, Repr

/-- `dataverseDatasetData`. -/
structure DataverseDatasetData where
  latestVersion : DataverseDatasetLatestVersion
deriving DecidableEq, Repr

/-- `api.DataverseDatasetResponse`. -/
structure DataverseDatasetResponse where
  data : DataverseDatasetData
deriving DecidableEq, Repr

/-- `zenodoLinks` (zenodo.go, pre-Invenio shape). -/
structure ZenodoLinks where
  self : String
deriving DecidableEq, Repr

/-- `zenodoDatasetFile` (zenodo.go, pre-Invenio shape). -/
structure ZenodoDatasetFile where
  id : String
  key : String
  size : Int
  checksum : String
  links : ZenodoLinks
deriving DecidableEq, Repr

/-- `zenodoRecord` (zenodo.go, pre-Invenio shape): `{files: [...]}`. -/
structure ZenodoRecord where
  files : List ZenodoDatasetFile
deriving DecidableEq, Repr

/-- A decoded JSON scalar, as Go `any` from `encoding/json`: only whether
the payload is a string matters to the resolver. -/
inductive JsonValue where
  | str (s : String)
  | other
deriving DecidableEq, Repr

/-- `doiResolverResponseValueData`. -/
structure DoiResolverResponseValueData where
  format : String
  value : JsonValue
deriving DecidableEq, Repr

/-- `doiResolverResponseValue`. -/
structure DoiResolverResponseValue where
  index : Int
  type : String
  data : DoiResolverResponseValueData
  ttl : Int
  timestamp : String
deriving DecidableEq, Repr

/-- `doiResolverResponse`: the DOI handle-resolution API payload. -/
structure DoiResolverResponse where
  responseCode : Int
  handle : String
  values : List DoiResolverResponseValue
deriving DecidableEq, Repr

/-- `headerLink`: a parsed `Link` response-header relation. -/
structure HeaderLink where
  href : String
  rel : String
  type : String
  extras : List (String × String)
deriving DecidableEq, Repr

/-! ## Core data model -/

/-- `Provider`: the enumerated provider tag bound to a session. -/
inductive Provider where
  | zenodo
  | dataverse
  | invenio
deriving DecidableEq, Repr

/-- The error values the backend returns: the read-only sentinel
`errorReadOnly`, the host sentinels `fs.ErrorDirNotFound` and
`fs.ErrorObjectNotFound`, plain message errors built with `fmt.Errorf`,
and wrapped errors (`%w`). -/
inductive Err where
  | readOnly
  | dirNotFound
  | objectNotFound
  | msg (s : String)
  | wrap (ctx : String) (e : Err)
deriving DecidableEq, Repr

/-- `Object`: a stat'd remote file.  The final iteration carries both the
legacy `name` field and the `remote` path; constructors leave the field
they do not set at the Go zero value `""`. -/
structure Object where
  name : String
  remote : String
  contentURL : String
  size : Int
  modTime : Time
  contentType : String
  md5 : String
deriving DecidableEq, Repr

/-- A host directory entry: a file object or a synthesized directory
(`fs.NewDir`, whose zero modification time is not modelled since no
claim reads it). -/
inductive DirEntry where
  | file (o : Object)
  | dir (remote : String)
deriving DecidableEq, Repr

/-- `Fs`: the per-session state the listed claims depend on — the
configured root, the bound endpoint and the metadata cache (the single
`"files"` key of `lib/cache` modelled as an `Option`). -/
structure Fs where
  root : String
  endpoint : URL
  cache : Option (List Object)
deriving DecidableEq, Repr

/-! ## Provider detection (`resolveEndpoint`, doi.go, final iteration) -/

/-- The provider-dispatch logic of `resolveEndpoint` (doi.go): the
Dataverse branch (exact host match OR explicit `dataverse` override) is
tested first, then the Zenodo branch (host match, subdomain match OR
explicit `zenodo` override); everything else is the unsupported-provider
error.  The chosen `Provider` selects which endpoint resolver runs. -/
def detectProvider (hostRaw provOpt : String) : Except Err Provider :=
  let hostname := goToLower hostRaw
  if hostname = "dataverse.harvard.edu" ∨ provOpt = "dataverse" then
    .ok Provider.dataverse
  else if hostname = "zenodo.org" ∨ goHasSuffix hostname ".zenodo.org" ∨ provOpt = "zenodo" then
    .ok Provider.zenodo
  else
    .error (.msg "provider is not supported")

/-! ## DOI handle resolution (`resolveDoiURL`, doi.go) -/

/-- The value-scanning loop of `resolveDoiURL`: every value of type
`URL` with `string` format overwrites the accumulator (the LAST one
wins); a matching value whose payload is not a string aborts with the
incorrect-response-format error. -/
def collectURLValue : List DoiResolverResponseValue → String → Except Err String
  | [], acc => .ok acc
  | v :: rest, acc =>
    if v.type = "URL" ∧ v.data.format = "string" then
      match v.data.value with
      | .str s => collectURLValue rest s
      | .other => .error (.msg "could not resolve DOI (incorrect response format)")
    else collectURLValue rest acc

/-- `resolveDoiURL` (doi.go) after the handle-resolution API call has
been decoded into `resp` (the network request and the DOI-string
normalisation are outside this function): checks the response code,
scans the values, and parses the selected string with `url.Parse`
(modelled by the `parseURL` argument). -/
def resolveDoiURL (parseURL : String → Option URL) (resp : DoiResolverResponse) :
    Except Err URL :=
  if resp.responseCode ≠ 1 then .error (.msg "could not resolve DOI (error code)")
  else
    match collectURLValue resp.values "" with
    | .error e => .error e
    | .ok s =>
      match parseURL s with
      | some u => .ok u
      | none => .error (.msg "could not parse the resolved URL")

/-! ## Generic Invenio endpoint discovery (invenio.go) -/

/-- `checkInvenioApiURL` (invenio.go): GET the candidate as JSON
(modelled by the oracle `get`; `none` covers transport and decode
failures), require a non-empty `links.self`, and parse it — the parsed
`links.self` (not the candidate) is the endpoint.  Any failure makes the
candidate invalid (`none`). -/
def checkInvenioApiURL (parseURL : String → Option URL)
    (get : URL → Option InvenioRecordResponse) (u : URL) : Option URL :=
  match get u with
  | none => none
  | some r => if r.links.self = "" then none else parseURL r.links.self

/-- The header-scanning loop of `resolveInvenioEndpoint`: the first link
with `rel=linkset` and `type=application/linkset+json` whose href parses
becomes the linkset candidate (a matching link whose href fails to parse
is skipped and the scan continues). -/
def findLinksetURL (parseURL : String → Option URL) : List HeaderLink → Option URL
  | [] => none
  | l :: rest =>
    if l.rel = "linkset" ∧ l.type = "application/linkset+json" then
      match parseURL l.href with
      | some u => some u
      | none => findLinksetURL parseURL rest
    else findLinksetURL parseURL rest

/-- The record-ID extraction of `resolveInvenioEndpoint`: the leftmost
match of the regular expression `\/records?\/(.+)` against the final
request path, with the greedy capture running to the end of the string
(at a given position `records/` is preferred over `record/`). -/
def findRecordID : List Char → Option String
  | [] => none
  | c :: rest =>
    if c = '/' then
      if ("records/".data).isPrefixOf rest ∧ 8 < rest.length then
        some (String.mk (rest.drop 8))
      else if ("record/".data).isPrefixOf rest ∧ 7 < rest.length then
        some (String.mk (rest.drop 7))
      else findRecordID rest
    else findRecordID rest

/-- `resolveInvenioEndpoint` (invenio.go).  `landing` is the outcome of
the initial GET on the resolved landing page: `none` is a transport
failure, otherwise the parsed `Link` header relations plus the final
(post-redirect) request URL.  Strategy 1 validates the linkset-header
candidate; on its failure (or absence) strategy 2 guesses
`/api/records/id` from the final path; the first validated candidate
wins and both failing yields the discovery error. -/
def resolveInvenioEndpoint (parseURL : String → Option URL)
    (get : URL → Option InvenioRecordResponse)
    (landing : Option (List HeaderLink × URL)) : Except Err (Provider × URL) :=
  match landing with
  | none => .error (.msg "landing page request failed")
  | some (links, resURL) =>
    let step2 : Except Err (Provider × URL) :=
      match findRecordID resURL.path.data with
      | some rid =>
        match checkInvenioApiURL parseURL get
            (resolveRefPath resURL ("/api/records/" ++ rid) "") with
        | some e => .ok (Provider.invenio, e)
        | none => .error (.msg "could not resolve the Invenio API endpoint")
      | none => .error (.msg "could not resolve the Invenio API endpoint")
    match findLinksetURL parseURL links with
    | some lu =>
      match checkInvenioApiURL parseURL get lu with
      | some e => .ok (Provider.invenio, e)
      | none => step2
    | none => step2

/-! ## Invenio/Zenodo file lister (invenio.go, final iteration) -/

/-- The entry construction of `listInvevioDoiFiles`: one uniform `Object`
per response entry.  `parseTime` models `time.Parse(time.RFC3339, s)`
(`none` = parse error); a failed parse falls back to `timeUnset`.  The
checksum goes through `strings.TrimLeft(checksum, "md5:")`. -/
def mkInvenioObject (parseTime : String → Option Time)
    (file : InvenioFilesResponseEntry) : Object :=
  { name := "",
    remote := file.key,
    contentURL := file.links.content,
    size := file.size,
    modTime := (parseTime file.updated).getD timeUnset,
    contentType := file.mimetype,
    md5 := goTrimLeftChars file.checksum "md5:" }

/-- `listInvevioDoiFiles` (invenio.go; the misspelling is the source's):
returns the cached `"files"` entry when present, otherwise consumes the
`GET endpoint/files` response (the oracle `fetch`; `none` = request or
decode failure), builds the entries and populates the cache. -/
def Fs.listInvevioDoiFiles (f : Fs) (parseTime : String → Option Time)
    (fetch : Option InvenioFilesResponse) : Except Err (List Object × Fs) :=
  match f.cache with
  | some cached => .ok (cached, f)
  | none =>
    match fetch with
    | none => .error (.wrap "readDir failed" (.msg "request failed"))
    | some resp =>
      let entries := resp.entries.map (mkInvenioObject parseTime)
      .ok (entries, { f with cache := some entries })

/-- `listInvenio` (invenio.go): only the root (empty dir) is listable;
any other directory is `fs.ErrorDirNotFound` before any request. -/
def Fs.listInvenio (f : Fs) (parseTime : String → Option Time) (dir : String)
    (fetch : Option InvenioFilesResponse) : Except Err (List DirEntry × Fs) :=
  if dir ≠ "" then .error .dirNotFound
  else
    match f.listInvevioDoiFiles parseTime fetch with
    | .error e => .error (.wrap "error listing" e)
    | .ok (es, f2) => .ok (es.map DirEntry.file, f2)

/-! ## Dataverse file lister (dataverse.go, final iteration) -/

/-- The entry construction of `listDataverseDoiFiles`: the remote path
joins `directoryLabel` and the filename, the content URL is synthesized
as `endpoint-host/api/access/datafile/id?format=original`, and when an
original (pre-ingest) filename is present the original name, size and
format replace the stored ones.  `mt` is the dataset-wide modification
time (Dataverse has no per-file timestamps). -/
def mkDataverseObject (endpoint : URL) (mt : Time) (file : DataverseFile) : Object :=
  let contentURL := urlToString (resolveRefPath endpoint
    ("/api/access/datafile/" ++ toString file.dataFile.id) "format=original")
  let base : Object :=
    { name := "",
      remote := goPathJoin file.directoryLabel file.dataFile.filename,
      contentURL := contentURL,
      size := file.dataFile.filesize,
      modTime := mt,
      contentType := file.dataFile.contentType,
      md5 := file.dataFile.md5 }
  if file.dataFile.originalFileName ≠ "" then
    { base with
      remote := goPathJoin file.directoryLabel file.dataFile.originalFileName,
      size := file.dataFile.originalFileSize,
      contentType := file.dataFile.originalFileFormat }
  else base

/-- `listDataverseDoiFiles` (dataverse.go): returns the cached `"files"`
entry when present, otherwise consumes the dataset GET response (the
oracle `fetch`), parses `latestVersion.lastUpdateTime` once (falling
back to `timeUnset`), builds the entries and populates the cache. -/
def Fs.listDataverseDoiFiles (f : Fs) (parseTime : String → Option Time)
    (fetch : Option DataverseDatasetResponse) : Except Err (List Object × Fs) :=
  match f.cache with
  | some cached => .ok (cached, f)
  | none =>
    match fetch with
    | none => .error (.wrap "readDir failed" (.msg "request failed"))
    | some resp =>
      let mt := (parseTime resp.data.latestVersion.lastUpdateTime).getD timeUnset
      let entries := resp.data.latestVersion.files.map (mkDataverseObject f.endpoint mt)
      .ok (entries, { f with cache := some entries })

/-- The per-entry classification loop of `listDataverse`: entries whose
parent directory does not extend `fullDir` as a string prefix are
dropped; after stripping a non-empty root, an entry whose parent equals
`dir` is a file result, and otherwise a parent containing NO slash is
recorded once as a pending directory name.  Returns the file results (in
input order) and the recorded directory names. -/
def dvScan (root dir fullDir : String) :
    List Object → List String → List DirEntry × List String
  | [], seen => ([], seen)
  | o :: rest, seen =>
    if goHasPre (splitPath o.remote).1 fullDir then
      let remotePath := if root ≠ "" then goTrimLeftChars (goDropPre o.remote root) "/" else o.remote
      let fileDir := (splitPath remotePath).1
      if fileDir = dir then
        let r := dvScan root dir fullDir rest seen
        (DirEntry.file { o with remote := remotePath } :: r.1, r.2)
      else if hasSlash fileDir then dvScan root dir fullDir rest seen
      else dvScan root dir fullDir rest (insertOnce seen fileDir)
    else dvScan root dir fullDir rest seen

/-- `listDataverse` (dataverse.go, final iteration): fetches (or reuses)
the flat entry set, classifies it against
`fullDir = Trim(Join(root, dir), "/")`, and appends one synthesized
directory entry `Join(dir, name)` per recorded name after the files
(recorded-name order stands in for Go map iteration order). -/
def Fs.listDataverse (f : Fs) (parseTime : String → Option Time) (dir : String)
    (fetch : Option DataverseDatasetResponse) : Except Err (List DirEntry × Fs) :=
  match f.listDataverseDoiFiles parseTime fetch with
  | .error e => .error (.wrap "error listing" e)
  | .ok (fileEntries, f2) =>
    let fullDir := goTrimChars (goPathJoin f.root dir) "/"
    let (files, dirPaths) := dvScan f.root dir fullDir fileEntries []
    .ok (files ++ dirPaths.map (fun d => DirEntry.dir (goPathJoin dir d)), f2)

/-! ## Zenodo lister (zenodo.go, first iteration with HEAD refresh) -/

/-- The metadata a HEAD request yields via `decodeMetadata`:
`Last-Modified` (already parsed, `timeUnset` on failure),
`Content-Type` and the header-derived size. -/
structure HeadMeta where
  modTime : Time
  contentType : String
  size : Int
deriving DecidableEq, Repr

/-- `Object.head` / `decodeMetadata` as applied by `listZenodo`: a
failed HEAD (oracle `none`) leaves the entry unchanged (logged and
skipped); success overwrites modification time, content type and size. -/
def applyHead (headO : String → Option HeadMeta) (o : Object) : Object :=
  match headO o.contentURL with
  | none => o
  | some m => { o with modTime := m.modTime, contentType := m.contentType, size := m.size }

/-- The entry construction of `listZenodoDoiFiles` (zenodo.go): the
record's `files` array, `links.self` as content URL, `timeUnset`
modification time, and `strings.TrimLeft(checksum, "md5:")`. -/
def mkZenodoObject (file : ZenodoDatasetFile) : Object :=
  { name := file.key,
    remote := "",
    contentURL := file.links.self,
    size := file.size,
    modTime := timeUnset,
    contentType := "",
    md5 := goTrimLeftChars file.checksum "md5:" }

/-- `listZenodoDoiFiles` (zenodo.go): consumes the record GET response
(oracle `fetch`; `none` collapses transport, status and decode
failures). -/
def Fs.listZenodoDoiFiles (_f : Fs) (fetch : Option ZenodoRecord) :
    Except Err (List Object) :=
  match fetch with
  | none => .error (.wrap "failed to readDir" (.msg "request failed"))
  | some rec => .ok (rec.files.map mkZenodoObject)

/-- `listZenodo` (zenodo.go): only the root (empty dir) is listable —
`fs.ErrorDirNotFound` otherwise, before any request; for the root each
entry is refreshed by a HEAD request (the worker pool updates each index
exactly once, so its net effect is the sequential map modelled here). -/
def Fs.listZenodo (f : Fs) (dir : String) (fetch : Option ZenodoRecord)
    (headO : String → Option HeadMeta) : Except Err (List DirEntry) :=
  if dir ≠ "" then .error .dirNotFound
  else
    match f.listZenodoDoiFiles fetch with
    | .error e => .error (.wrap "error listing" e)
    | .ok es => .ok ((es.map (applyHead headO)).map DirEntry.file)

/-! ## Write-style operations (doi.go): the read-only invariant -/

/-- The metadata of an upload source (`fs.ObjectInfo`), as far as the
write operations could inspect it — they never do. -/
structure UploadSrc where
  remote : String
  size : Int
deriving DecidableEq, Repr

/-- `Fs.Mkdir` (doi.go): unconditionally `errorReadOnly`; consults no
oracle and returns no new state. -/
def Fs.Mkdir (_f : Fs) (_dir : String) : Except Err Unit := .error .readOnly

/-- `Fs.Rmdir` (doi.go): unconditionally `errorReadOnly`. -/
def Fs.Rmdir (_f : Fs) (_dir : String) : Except Err Unit := .error .readOnly

/-- `Object.Remove` (doi.go): unconditionally `errorReadOnly`. -/
def Object.Remove (_o : Object) : Except Err Unit := .error .readOnly

/-- `Fs.Put` (doi.go): unconditionally `errorReadOnly` (the returned
object is Go `nil`, i.e. absent). -/
def Fs.Put (_f : Fs) (_src : UploadSrc) : Except Err Object := .error .readOnly

/-- `Fs.PutStream` (doi.go): unconditionally `errorReadOnly`. -/
def Fs.PutStream (_f : Fs) (_src : UploadSrc) : Except Err Object := .error .readOnly

/-- `Object.Update` (doi.go): unconditionally `errorReadOnly`. -/
def Object.Update (_o : Object) (_src : UploadSrc) : Except Err Unit := .error .readOnly

/-- `Object.SetModTime` (doi.go): unconditionally `errorReadOnly`. -/
def Object.SetModTime (_o : Object) (_t : Time) : Except Err Unit := .error .readOnly

/-! ## Concrete sample sessions and responses used by witnesses -/

/-- A sample bound endpoint. -/
def epSample : URL := { scheme := "https", host := "h", path := "/", query := "" }

/-- A cached entry with an empty directory label. -/
def oRoot : Object :=
  { name := "", remote := "a.txt", contentURL := "", size := 1, modTime := 5,
    contentType := "", md5 := "" }

/-- A cached entry with directory label `sub`. -/
def oSub1 : Object :=
  { name := "", remote := "sub/f1", contentURL := "", size := 2, modTime := 5,
    contentType := "", md5 := "" }

/-- A second cached entry with directory label `sub`. -/
def oSub2 : Object :=
  { name := "", remote := "sub/f2", contentURL := "", size := 3, modTime := 5,
    contentType := "", md5 := "" }

/-- A cached entry two levels deep. -/
def oDeep : Object :=
  { name := "", remote := "sub/x/f", contentURL := "", size := 1, modTime := 5,
    contentType := "", md5 := "" }

/-- The session of the spec's Dataverse example: cached entries with
directory labels `""`, `"sub"`, `"sub"`. -/
def fsSample : Fs := { root := "", endpoint := epSample, cache := some [oRoot, oSub1, oSub2] }

/-- A session whose only cached entry lies two levels deep. -/
def fsDeep : Fs := { root := "", endpoint := epSample, cache := some [oDeep] }

/-- A fresh session with an empty cache. -/
def fsEmpty : Fs := { root := "", endpoint := epSample, cache := none }

/-- A one-entry Invenio files response. -/
def respSample : InvenioFilesResponse :=
  { entries := [{ key := "k.txt", checksum := "md5:abc", size := 4, updated := "bogus",
                  mimetype := "text/plain", links := { content := "https://h/x" } }] }

/-- A one-file Dataverse dataset response with an unparseable update time. -/
def drespSample : DataverseDatasetResponse :=
  { data := { latestVersion := { lastUpdateTime := "bogus", files :=
      [{ directoryLabel := "lab", dataFile :=
          { id := 7, filename := "f.tab", contentType := "text/tab-separated-values",
            filesize := 10, originalFileFormat := "text/csv", originalFileSize := 12,
            originalFileName := "f.csv", md5 := "aa" } }] } } }

/-- The entries the sample Invenio response yields under an
always-failing time parser. -/
def esInvSample : List Object := respSample.entries.map (mkInvenioObject (fun _ => none))

/-- The entries the sample Dataverse response yields (its update time
does not parse, so the sentinel is used). -/
def esDvSample : List Object :=
  drespSample.data.latestVersion.files.map (mkDataverseObject epSample timeUnset)

/-- The session state after a first successful Invenio listing. -/
def fsInvCached : Fs := { fsEmpty with cache := some esInvSample }

/-- The session state after a first successful Dataverse listing. -/
def fsDvCached : Fs := { fsEmpty with cache := some esDvSample }

/-- A landing page whose linkset header candidate will fail validation. -/
def linksSample : List HeaderLink :=
  [{ href := "https://h/linkcand", rel := "linkset", type := "application/linkset+json",
     extras := [] }]

/-- The final (post-redirect) landing URL of the discovery sample. -/
def resURLSample : URL := { scheme := "https", host := "h", path := "/records/77", query := "" }

/-- The path-guess candidate derived from `resURLSample`. -/
def guessSample : URL := { scheme := "https", host := "h", path := "/api/records/77", query := "" }

/-- A record GET oracle that validates only the path-guess candidate,
advertising a distinct canonical self link. -/
def getSample : URL → Option InvenioRecordResponse := fun u =>
  if u = guessSample then some { links := { self := "https://h/api/records/77" } } else none

/-- The endpoint the discovery sample resolves to: the parse of the
record's `links.self`. -/
def endpointSample : URL :=
  { scheme := "https", host := "h", path := "/api/records/77", query := "" }

/-! ## Theorems -/

/-- C6: every write-style operation — Mkdir, Rmdir, Remove, Put,
PutStream, Update, SetModTime — returns the single read-only error
`errorReadOnly` immediately and unconditionally, for every input; none
of them takes a network oracle or produces a new session state. -/
theorem c6_read_only_invariant :
    ∀ (f : Fs) (o : Object) (d : String) (src : UploadSrc) (t : Time),
    f.Mkdir d = .error .readOnly ∧
    f.Rmdir d = .error .readOnly ∧
    o.Remove = .error .readOnly ∧
    f.Put src = .error .readOnly ∧
    f.PutStream src = .error .readOnly ∧
    o.Update src = .error .readOnly ∧
    o.SetModTime t = .error .readOnly := by
  intro f o d src t
  exact ⟨rfl, rfl, rfl, rfl, rfl, rfl, rfl⟩

/-- C7: evaluation of the checksum normalisation at the failing input.
The source computes `strings.TrimLeft(checksum, "md5:")`, which removes
the LEADING CHARACTERS belonging to the set `{m, d, 5, :}` rather than
the literal prefix `md5:`; a digest beginning with the hex digit `d` is
therefore corrupted: `md5:d41d8cd98f00b204e9800998ecf8427e` is exposed
as `41d8cd98f00b204e9800998ecf8427e`, not as the digest with exactly the
prefix removed. -/
theorem c7_checksum_trimleft_slip :
    (mkInvenioObject (fun _ => none)
      { key := "file.bin", checksum := "md5:d41d8cd98f00b204e9800998ecf8427e",
        size := 0, updated := "", mimetype := "",
        links := { content := "" } }).md5 = "41d8cd98f00b204e9800998ecf8427e" ∧
    (mkInvenioObject (fun _ => none)
      { key := "file.bin", checksum := "md5:d41d8cd98f00b204e9800998ecf8427e",
        size := 0, updated := "", mimetype := "",
        links := { content := "" } }).md5 ≠ "d41d8cd98f00b204e9800998ecf8427e" := by
  constructor <;> decide

/-- C9: for every non-empty directory argument, the Invenio and Zenodo
list operations return the host's `fs.ErrorDirNotFound` sentinel; the
result does not depend on the network oracles (quantified over all of
them), so no request is issued. -/
theorem c9_nonroot_listing_not_found :
    ∀ (f : Fs) (pt : String → Option Time) (dir : String)
      (fi : Option InvenioFilesResponse) (fz : Option ZenodoRecord)
      (ho : String → Option HeadMeta),
    dir ≠ "" →
    f.listInvenio pt dir fi = .error .dirNotFound ∧
    f.listZenodo dir fz ho = .error .dirNotFound := by
  intro f pt dir fi fz ho h
  constructor <;> simp [Fs.listInvenio, Fs.listZenodo, h]

/-- C9 witness: listing the directory `sub` of a concrete session. -/
theorem c9_witness :
    ("sub" ≠ "") ∧
    (fsEmpty.listInvenio (fun _ => none) "sub" none = .error .dirNotFound ∧
     fsEmpty.listZenodo "sub" none (fun _ => none) = .error .dirNotFound) :=
  ⟨by decide,
   c9_nonroot_listing_not_found fsEmpty (fun _ => none) "sub" none none (fun _ => none)
     (by decide)⟩

/-- C3 counterexample: with the explicit override `zenodo` and the
resolved host `dataverse.harvard.edu`, the dispatcher binds the session
to Dataverse — the Dataverse branch (host match OR `dataverse`
override) is tested before the Zenodo branch, so the claimed override
precedence fails in this direction. -/
theorem c3_counterexample :
    detectProvider "dataverse.harvard.edu" "zenodo" = .ok Provider.dataverse ∧
    detectProvider "dataverse.harvard.edu" "zenodo" ≠ .ok Provider.zenodo := by
  constructor <;> decide

/-- C3 (amended): an explicit `dataverse` override always wins (even
against a Zenodo host match), while an explicit `zenodo` override wins
only when the lower-cased resolved host is not exactly
`dataverse.harvard.edu`. -/
theorem c3_override_precedence :
    ∀ (h : String),
    detectProvider h "dataverse" = .ok Provider.dataverse ∧
    (goToLower h ≠ "dataverse.harvard.edu" → detectProvider h "zenodo" = .ok Provider.zenodo) := by
  intro h
  constructor
  · simp [detectProvider]
  · intro hz
    simp [detectProvider, hz]

/-- C3 witness: the `dataverse` override beats the Zenodo host match,
and the `zenodo` override applies on a non-Dataverse host. -/
theorem c3_witness :
    (detectProvider "zenodo.org" "dataverse" = .ok Provider.dataverse) ∧
    (goToLower "zenodo.org" ≠ "dataverse.harvard.edu") ∧
    (detectProvider "zenodo.org" "zenodo" = .ok Provider.zenodo) :=
  ⟨(c3_override_precedence "zenodo.org").1, by decide,
   (c3_override_precedence "zenodo.org").2 (by decide)⟩

/-- When no value of type `URL` with `string` format is present, the
scanning loop finishes with its accumulator untouched. -/
theorem collectURLValue_no_match :
    ∀ (vs : List DoiResolverResponseValue) (acc : String),
    (∀ v ∈ vs, ¬(v.type = "URL" ∧ v.data.format = "string")) →
    collectURLValue vs acc = .ok acc := by
  intro vs
  induction vs with
  | nil => intro acc _; rfl
  | cons v rest ih =>
    intro acc h
    have hv := h v (by simp)
    simp only [collectURLValue, if_neg hv]
    exact ih acc (fun w hw => h w (by simp [hw]))

/-- C4 counterexample: a handle-resolution response with success code 1
and NO value of type `URL` does not fail — the selected string stays
empty, Go `url.Parse("")` succeeds, and the resolver returns the zero
URL (`.ok`, not an error); the unsupported-provider error only surfaces
later, in provider detection.  The claim says this case fails with a
resolution error. -/
theorem c4_counterexample :
    resolveDoiURL goURLParse { responseCode := 1, handle := "10.1000/182", values := [] }
      = .ok { scheme := "", host := "", path := "", query := "" } := by
  decide

/-- C4 (amended): resolution fails when the response code is not 1 or
when a `URL`-typed `string`-format value carries a non-string payload
(inside the scan), and it returns the parsed URL of the last matching
value on success; but when NO `URL`-typed value is present it does not
fail — it returns the result of parsing the empty string (which
succeeds under Go's `url.Parse`). -/
theorem c4_resolution_errors :
    ∀ (pu : String → Option URL) (resp : DoiResolverResponse),
    (resp.responseCode ≠ 1 → ∃ e, resolveDoiURL pu resp = .error e) ∧
    (∀ s u, resp.responseCode = 1 → collectURLValue resp.values "" = .ok s →
       pu s = some u → resolveDoiURL pu resp = .ok u) ∧
    (∀ u, (∀ v ∈ resp.values, ¬(v.type = "URL" ∧ v.data.format = "string")) →
       resp.responseCode = 1 → pu "" = some u → resolveDoiURL pu resp = .ok u) := by
  intro pu resp
  refine ⟨?_, ?_, ?_⟩
  · intro h
    exact ⟨.msg "could not resolve DOI (error code)", by simp [resolveDoiURL, h]⟩
  · intro s u h1 h2 h3
    simp [resolveDoiURL, h1, h2, h3]
  · intro u hnone h1 h2
    simp [resolveDoiURL, h1, collectURLValue_no_match resp.values "" hnone, h2]

/-- C4 witness: a non-success code fails; a response whose last
`URL`-typed value is `https://h/x` resolves to its parse; a response
with no `URL`-typed value resolves to the parse of the empty string. -/
theorem c4_witness :
    (∃ e, resolveDoiURL goURLParse
        { responseCode := 2, handle := "10.1/x", values := [] } = .error e) ∧
    (resolveDoiURL goURLParse
        { responseCode := 1, handle := "10.1/x", values :=
          [{ index := 1, type := "URL",
             data := { format := "string", value := .str "https://h/x" },
             ttl := 86400, timestamp := "t" }] }
      = .ok { scheme := "https", host := "h", path := "/x", query := "" }) ∧
    (resolveDoiURL goURLParse { responseCode := 1, handle := "10.1/y", values :=
          [{ index := 1, type := "EMAIL",
             data := { format := "string", value := .str "x@y" },
             ttl := 86400, timestamp := "t" }] }
      = .ok { scheme := "", host := "", path := "", query := "" }) :=
  ⟨(c4_resolution_errors goURLParse _).1 (by decide),
   (c4_resolution_errors goURLParse _).2.1 "https://h/x"
     { scheme := "https", host := "h", path := "/x", query := "" }
     (by decide) (by decide) (by decide),
   (c4_resolution_errors goURLParse _).2.2
     { scheme := "", host := "", path := "", query := "" }
     (by decide) (by decide) (by decide)⟩

/-- C2: a candidate is accepted exactly when its GET decodes to a record
with a non-empty `links.self` that parses, and the parsed `links.self`
(not the candidate) is the endpoint; and in every run where the
link-header candidate exists but fails validation while the path-guess
candidate validates, discovery succeeds with the path-guess candidate's
endpoint and surfaces no error. -/
theorem c2_invenio_discovery :
    ∀ (pu : String → Option URL) (get : URL → Option InvenioRecordResponse),
    (∀ u e, checkInvenioApiURL pu get u = some e →
       ∃ r, get u = some r ∧ r.links.self ≠ "" ∧ pu r.links.self = some e) ∧
    (∀ (links : List HeaderLink) (resURL lu e : URL) (rid : String),
       findLinksetURL pu links = some lu →
       checkInvenioApiURL pu get lu = none →
       findRecordID resURL.path.data = some rid →
       checkInvenioApiURL pu get (resolveRefPath resURL ("/api/records/" ++ rid) "") = some e →
       resolveInvenioEndpoint pu get (some (links, resURL)) = .ok (Provider.invenio, e)) := by
  intro pu get
  constructor
  · intro u e h
    unfold checkInvenioApiURL at h
    cases hg : get u with
    | none => rw [hg] at h; exact absurd h (by simp)
    | some r =>
      rw [hg] at h
      dsimp only at h
      by_cases hs : r.links.self = ""
      · rw [if_pos hs] at h; exact absurd h (by simp)
      · rw [if_neg hs] at h; exact ⟨r, rfl, hs, h⟩
  · intro links resURL lu e rid h1 h2 h3 h4
    simp [resolveInvenioEndpoint, h1, h2, h3, h4]

/-- C2 witness: the concrete discovery sample — the linkset candidate
fails validation, the path-guess candidate validates, and the bound
endpoint is the record's parsed `links.self`. -/
theorem c2_witness :
    (∃ r, getSample guessSample = some r ∧ r.links.self ≠ "" ∧
       goURLParse r.links.self = some endpointSample) ∧
    resolveInvenioEndpoint goURLParse getSample (some (linksSample, resURLSample))
      = .ok (Provider.invenio, endpointSample) :=
  ⟨(c2_invenio_discovery goURLParse getSample).1 guessSample endpointSample (by decide),
   (c2_invenio_discovery goURLParse getSample).2 linksSample resURLSample
     { scheme := "https", host := "h", path := "/linkcand", query := "" }
     endpointSample "77" (by decide) (by decide) (by decide) (by decide)⟩

/-- A populated cache short-circuits the Invenio lister: the cached
entries come back and the state is untouched, whatever the oracle. -/
theorem listInvevioDoiFiles_cache_hit :
    ∀ (f : Fs) (pt : String → Option Time) (fe : Option InvenioFilesResponse)
      (c : List Object), f.cache = some c → f.listInvevioDoiFiles pt fe = .ok (c, f) := by
  intro f pt fe c hc
  simp [Fs.listInvevioDoiFiles, hc]

/-- After any successful Invenio listing the cache holds exactly the
returned entries. -/
theorem listInvevioDoiFiles_cache_after :
    ∀ (f : Fs) (pt : String → Option Time) (fe : Option InvenioFilesResponse)
      (es : List Object) (f1 : Fs),
    f.listInvevioDoiFiles pt fe = .ok (es, f1) → f1.cache = some es := by
  intro f pt fe es f1 h
  unfold Fs.listInvevioDoiFiles at h
  cases hc : f.cache with
  | some c =>
    rw [hc] at h
    simp only [Except.ok.injEq, Prod.mk.injEq] at h
    rw [← h.2, ← h.1, hc]
  | none =>
    rw [hc] at h
    cases fe with
    | none => simp at h
    | some resp =>
      simp only [Except.ok.injEq, Prod.mk.injEq] at h
      rw [← h.2, ← h.1]

/-- A populated cache short-circuits the Dataverse lister. -/
theorem listDataverseDoiFiles_cache_hit :
    ∀ (f : Fs) (pt : String → Option Time) (fe : Option DataverseDatasetResponse)
      (c : List Object), f.cache = some c → f.listDataverseDoiFiles pt fe = .ok (c, f) := by
  intro f pt fe c hc
  simp [Fs.listDataverseDoiFiles, hc]

/-- After any successful Dataverse listing the cache holds exactly the
returned entries. -/
theorem listDataverseDoiFiles_cache_after :
    ∀ (f : Fs) (pt : String → Option Time) (fe : Option DataverseDatasetResponse)
      (es : List Object) (f1 : Fs),
    f.listDataverseDoiFiles pt fe = .ok (es, f1) → f1.cache = some es := by
  intro f pt fe es f1 h
  unfold Fs.listDataverseDoiFiles at h
  cases hc : f.cache with
  | some c =>
    rw [hc] at h
    simp only [Except.ok.injEq, Prod.mk.injEq] at h
    rw [← h.2, ← h.1, hc]
  | none =>
    rw [hc] at h
    cases fe with
    | none => simp at h
    | some resp =>
      simp only [Except.ok.injEq, Prod.mk.injEq] at h
      rw [← h.2, ← h.1]

/-- C5: once a first `list_files` call has succeeded, a second call in
the same session returns an equal entry sequence and the same session
state whatever the second network oracle supplies (so no fetch is
needed) — for both the Invenio/Zenodo and the Dataverse listers. -/
theorem c5_listing_cache :
    ∀ (pt : String → Option Time) (f g : Fs) (resp : InvenioFilesResponse)
      (dresp : DataverseDatasetResponse) (es ds : List Object) (f1 g1 : Fs)
      (fe2 : Option InvenioFilesResponse) (de2 : Option DataverseDatasetResponse),
    f.listInvevioDoiFiles pt (some resp) = .ok (es, f1) →
    g.listDataverseDoiFiles pt (some dresp) = .ok (ds, g1) →
    f1.listInvevioDoiFiles pt fe2 = .ok (es, f1) ∧
    g1.listDataverseDoiFiles pt de2 = .ok (ds, g1) := by
  intro pt f g resp dresp es ds f1 g1 fe2 de2 h1 h2
  exact ⟨listInvevioDoiFiles_cache_hit f1 pt fe2 es
           (listInvevioDoiFiles_cache_after f pt (some resp) es f1 h1),
         listDataverseDoiFiles_cache_hit g1 pt de2 ds
           (listDataverseDoiFiles_cache_after g pt (some dresp) ds g1 h2)⟩

/-- C5 witness: concrete first calls on fresh sessions, then second
calls whose oracle supplies nothing (`none`) yet still succeed with the
same entries. -/
theorem c5_witness :
    (fsEmpty.listInvevioDoiFiles (fun _ => none) (some respSample)
       = .ok (esInvSample, fsInvCached)) ∧
    (fsEmpty.listDataverseDoiFiles (fun _ => none) (some drespSample)
       = .ok (esDvSample, fsDvCached)) ∧
    (fsInvCached.listInvevioDoiFiles (fun _ => none) none = .ok (esInvSample, fsInvCached) ∧
     fsDvCached.listDataverseDoiFiles (fun _ => none) none = .ok (esDvSample, fsDvCached)) :=
  ⟨by decide, by decide,
   c5_listing_cache (fun _ => none) fsEmpty fsEmpty respSample drespSample
     esInvSample esDvSample fsInvCached fsDvCached none none (by decide) (by decide)⟩

/-- `mkDataverseObject` stamps the dataset-wide modification time on the
entry whether or not the original-file fields take precedence. -/
theorem mkDataverseObject_modTime :
    ∀ (ep : URL) (mt : Time) (file : DataverseFile),
    (mkDataverseObject ep mt file).modTime = mt := by
  intro ep mt file
  unfold mkDataverseObject
  split <;> rfl

/-- C8: when the `updated` (Invenio/Zenodo) or `lastUpdateTime`
(Dataverse) field fails to parse as RFC3339 (the `parseTime` oracle
returns `none`, which also covers an absent field decoded to `""`), the
affected entries carry the unset sentinel time (Unix epoch zero) and
the listing still succeeds. -/
theorem c8_timestamp_fallback :
    ∀ (pt : String → Option Time) (f g : Fs) (resp : InvenioFilesResponse)
      (dresp : DataverseDatasetResponse),
    f.cache = none → g.cache = none →
    (f.listInvevioDoiFiles pt (some resp)
       = .ok (resp.entries.map (mkInvenioObject pt),
              { f with cache := some (resp.entries.map (mkInvenioObject pt)) })) ∧
    (∀ e ∈ resp.entries, pt e.updated = none → (mkInvenioObject pt e).modTime = timeUnset) ∧
    (∃ es g2, g.listDataverseDoiFiles pt (some dresp) = .ok (es, g2) ∧
       (pt dresp.data.latestVersion.lastUpdateTime = none →
          ∀ o ∈ es, o.modTime = timeUnset)) := by
  intro pt f g resp dresp hc hg
  refine ⟨by simp [Fs.listInvevioDoiFiles, hc], ?_, ?_⟩
  · intro e _ hp
    simp [mkInvenioObject, hp]
  · refine ⟨dresp.data.latestVersion.files.map
        (mkDataverseObject g.endpoint
          ((pt dresp.data.latestVersion.lastUpdateTime).getD timeUnset)),
      { g with cache := some (dresp.data.latestVersion.files.map
          (mkDataverseObject g.endpoint
            ((pt dresp.data.latestVersion.lastUpdateTime).getD timeUnset))) },
      by simp [Fs.listDataverseDoiFiles, hg], ?_⟩
    intro hp o ho
    rw [hp] at ho
    obtain ⟨file, _, hfo⟩ := List.mem_map.mp ho
    rw [← hfo]
    exact mkDataverseObject_modTime g.endpoint timeUnset file

/-- C8 witness: a parse oracle that always fails, on the concrete
sample responses — both listings succeed and every entry carries the
sentinel time. -/
theorem c8_witness :
    (fsEmpty.listInvevioDoiFiles (fun _ => none) (some respSample)
       = .ok (esInvSample, fsInvCached)) ∧
    (∀ e ∈ respSample.entries, (fun _ => (none : Option Time)) e.updated = none →
       (mkInvenioObject (fun _ => none) e).modTime = timeUnset) ∧
    (∃ es g2, fsEmpty.listDataverseDoiFiles (fun _ => none) (some drespSample) = .ok (es, g2) ∧
       ((fun _ => (none : Option Time)) drespSample.data.latestVersion.lastUpdateTime = none →
          ∀ o ∈ es, o.modTime = timeUnset)) :=
  c8_timestamp_fallback (fun _ => none) fsEmpty fsEmpty respSample drespSample rfl rfl

/-- The empty string is a prefix of every string
(`strings.HasPrefix(s, "")`). -/
theorem goHasPre_empty (s : String) : goHasPre s "" = true := by
  unfold goHasPre
  rw [show ("" : String).data = [] from rfl]
  cases s.data <;> rfl

/-- Splitting a slash-free character list yields the single segment. -/
theorem splitSlashes_no_slash :
    ∀ cs : List Char, cs.any (fun c => c == '/') = false → splitSlashes cs = [cs] := by
  intro cs
  induction cs with
  | nil => intro _; rfl
  | cons c rest ih =>
    intro h
    simp only [List.any_cons, Bool.or_eq_false_iff] at h
    have hc : ¬(c = '/') := by
      intro hh
      subst hh
      simp at h
    unfold splitSlashes
    rw [ih h.2]
    simp [hc]

/-- An Object record update that rewrites a field to itself is the
identity (structure eta). -/
theorem obj_eta (o : Object) : { o with remote := o.remote } = o := rfl

/-- Joining a slash-free non-empty name onto the empty path returns it
unchanged (`path.Join("", d) = d`). -/
theorem goPathJoin_empty_left (d : String) (h1 : d ≠ "") (h2 : hasSlash d = false) :
    goPathJoin "" d = d := by
  by_cases hdot : d = "."
  · subst hdot; decide
  · by_cases hdd : d = ".."
    · subst hdd; decide
    · have hfil : (["", d].filter (fun x => x ≠ "")) = [d] := by simp [h1]
      have hsegs : splitSlashes d.data = [d.data] := splitSlashes_no_slash d.data h2
      have hhead : ¬(d.data.head? = some '/') := by
        cases hd : d.data with
        | nil => simp
        | cons c cs =>
          simp only [List.head?]
          intro hc
          injection hc with hc
          subst hc
          have ht : hasSlash d = true := by
            unfold hasSlash
            rw [hd]
            simp
          rw [h2] at ht
          exact Bool.noConfusion ht
      have hclean : cleanFold [] [d] = [d] := by
        unfold cleanFold
        rw [if_neg (by simp [h1, hdot]), if_neg hdd]
        rfl
      unfold goPathJoin
      rw [hfil, if_neg (by simp), show String.intercalate "/" [d] = d from rfl]
      unfold goPathClean
      rw [hsegs]
      simp only [List.map]
      rw [show String.mk d.data = d from rfl, if_neg hhead, hclean,
        show ([d] : List String).reverse = [d] from rfl, if_neg (by simp)]
      rfl

/-- Membership after a set-style insertion. -/
theorem insertOnce_mem (s : List String) (x d : String) :
    d ∈ insertOnce s x ↔ d ∈ s ∨ d = x := by
  unfold insertOnce
  by_cases hx : x ∈ s
  · rw [if_pos hx]
    constructor
    · exact Or.inl
    · intro h
      cases h with
      | inl h => exact h
      | inr h => exact h ▸ hx
  · rw [if_neg hx]
    simp

/-- Root-listing classification, file part: with empty root and root
directory, the file results of the scan are exactly the entries whose
parent directory is empty, in input order, whatever directory names
were already recorded. -/
theorem dvScan_root_files :
    ∀ (os : List Object) (seen : List String),
    (dvScan "" "" "" os seen).1
      = (os.filter (fun o => (splitPath o.remote).1 = "")).map DirEntry.file := by
  intro os
  induction os with
  | nil => intro seen; rfl
  | cons o rest ih =>
    intro seen
    by_cases h : (splitPath o.remote).1 = ""
    · simp [dvScan, goHasPre_empty, h, ih, obj_eta]
    · by_cases hs : hasSlash (splitPath o.remote).1
      · simp [dvScan, goHasPre_empty, h, hs, ih]
      · simp [dvScan, goHasPre_empty, h, hs, ih]

/-- Root-listing classification, directory part: a name is recorded by
the scan iff it was already recorded or it is the (non-empty,
slash-free) parent directory of some entry. -/
theorem dvScan_root_dirs_mem :
    ∀ (os : List Object) (seen : List String) (d : String),
    d ∈ (dvScan "" "" "" os seen).2 ↔
      d ∈ seen ∨ ∃ o ∈ os, (splitPath o.remote).1 = d ∧ d ≠ "" ∧ hasSlash d = false := by
  intro os
  induction os with
  | nil =>
    intro seen d
    simp [dvScan]
  | cons o rest ih =>
    intro seen d
    by_cases h : (splitPath o.remote).1 = ""
    · rw [show (dvScan "" "" "" (o :: rest) seen).2 = (dvScan "" "" "" rest seen).2 by
        simp [dvScan, goHasPre_empty, h]]
      rw [ih seen d]
      constructor
      · intro hh
        cases hh with
        | inl hh => exact Or.inl hh
        | inr hh =>
          obtain ⟨w, hw, hp⟩ := hh
          exact Or.inr ⟨w, List.mem_cons_of_mem o hw, hp⟩
      · intro hh
        cases hh with
        | inl hh => exact Or.inl hh
        | inr hh =>
          obtain ⟨w, hw, hp⟩ := hh
          cases List.mem_cons.mp hw with
          | inl hwo =>
            subst hwo
            exact absurd (hp.1.symm.trans h) hp.2.1
          | inr hwr => exact Or.inr ⟨w, hwr, hp⟩
    · cases hs : hasSlash (splitPath o.remote).1 with
      | true =>
        rw [show (dvScan "" "" "" (o :: rest) seen).2 = (dvScan "" "" "" rest seen).2 by
          simp [dvScan, goHasPre_empty, h, hs]]
        rw [ih seen d]
        constructor
        · intro hh
          cases hh with
          | inl hh => exact Or.inl hh
          | inr hh =>
            obtain ⟨w, hw, hp⟩ := hh
            exact Or.inr ⟨w, List.mem_cons_of_mem o hw, hp⟩
        · intro hh
          cases hh with
          | inl hh => exact Or.inl hh
          | inr hh =>
            obtain ⟨w, hw, hp⟩ := hh
            cases List.mem_cons.mp hw with
            | inl hwo =>
              subst hwo
              rw [hp.1, hp.2.2] at hs
              exact Bool.noConfusion hs
            | inr hwr => exact Or.inr ⟨w, hwr, hp⟩
      | false =>
        rw [show (dvScan "" "" "" (o :: rest) seen).2
              = (dvScan "" "" "" rest (insertOnce seen (splitPath o.remote).1)).2 by
          simp [dvScan, goHasPre_empty, h, hs]]
        rw [ih (insertOnce seen (splitPath o.remote).1) d, insertOnce_mem]
        constructor
        · intro hh
          rcases hh with (hh | hh) | hh
          · exact Or.inl hh
          · subst hh
            exact Or.inr ⟨o, List.mem_cons_self o rest, rfl, h, hs⟩
          · obtain ⟨w, hw, hp⟩ := hh
            exact Or.inr ⟨w, List.mem_cons_of_mem o hw, hp⟩
        · intro hh
          cases hh with
          | inl hh => exact Or.inl (Or.inl hh)
          | inr hh =>
            obtain ⟨w, hw, hp⟩ := hh
            cases List.mem_cons.mp hw with
            | inl hwo =>
              subst hwo
              exact Or.inl (Or.inr hp.1.symm)
            | inr hwr => exact Or.inr ⟨w, hwr, hp⟩

/-- C1 counterexample: the session root is empty and the single cached
entry is `sub/x/f`, whose parent directory `sub/x` is a strict,
single-level descendant of the listed directory `sub` — the claim
requires one synthetic subdirectory (`x`); the code instead returns NO
entries, because it records a parent as a subdirectory only when the
whole parent contains no slash. -/
theorem c1_counterexample :
    fsDeep.listDataverse (fun _ => none) "sub" none = .ok ([], fsDeep) := by
  decide

/-- C1 (amended): with an empty session root, listing the ROOT
directory classifies the cached flat entry set exactly as the claim
states (a file result iff the parent directory is empty; one synthetic
subdirectory per distinct non-empty slash-free parent); for a non-root
directory synthetic subdirectories are only recorded from entries whose
entire parent is slash-free, so the claim holds at the root and on the
spec's concrete example (labels `""`, `sub`, `sub`), but not for deeper
descendants of a non-root directory. -/
theorem c1_dataverse_dir_synthesis :
    ∀ (pt : String → Option Time) (f : Fs) (cached : List Object)
      (fetch : Option DataverseDatasetResponse),
    f.root = "" → f.cache = some cached →
    (∃ es, f.listDataverse pt "" fetch = .ok (es, f) ∧
      (∀ o : Object, DirEntry.file o ∈ es ↔ o ∈ cached ∧ (splitPath o.remote).1 = "") ∧
      (∀ d : String, DirEntry.dir d ∈ es ↔
         d ≠ "" ∧ hasSlash d = false ∧ ∃ o ∈ cached, (splitPath o.remote).1 = d)) ∧
    (fsSample.listDataverse pt "" fetch
       = .ok ([DirEntry.file oRoot, DirEntry.dir "sub"], fsSample) ∧
     fsSample.listDataverse pt "sub" fetch
       = .ok ([DirEntry.file oSub1, DirEntry.file oSub2], fsSample)) := by
  intro pt f cached fetch hr hc
  constructor
  · have hlist : f.listDataverseDoiFiles pt fetch = .ok (cached, f) :=
      listDataverseDoiFiles_cache_hit f pt fetch cached hc
    refine ⟨(dvScan "" "" "" cached []).1
        ++ (dvScan "" "" "" cached []).2.map (fun d => DirEntry.dir (goPathJoin "" d)),
      ?_, ?_, ?_⟩
    · unfold Fs.listDataverse
      rw [hlist]
      dsimp only
      rw [hr, show goTrimChars (goPathJoin "" "") "/" = "" by decide]
    · intro o
      simp [dvScan_root_files, List.mem_filter]
    · intro d
      simp only [List.mem_append, List.mem_map]
      constructor
      · intro hh
        cases hh with
        | inl hh =>
          rw [dvScan_root_files] at hh
          obtain ⟨w, _, heq⟩ := List.mem_map.mp hh
          exact DirEntry.noConfusion heq
        | inr hh =>
          obtain ⟨x, hx, heq⟩ := hh
          have hx2 := (dvScan_root_dirs_mem cached [] x).mp hx
          simp only [List.not_mem_nil, false_or] at hx2
          obtain ⟨w, hw, hpar, hne, hsl⟩ := hx2
          rw [goPathJoin_empty_left x hne hsl] at heq
          injection heq with heq
          subst heq
          exact ⟨hne, hsl, w, hw, hpar⟩
      · rintro ⟨hne, hsl, w, hw, hpar⟩
        right
        exact ⟨d, (dvScan_root_dirs_mem cached [] d).mpr (Or.inr ⟨w, hw, hpar, hne, hsl⟩),
          by rw [goPathJoin_empty_left d hne hsl]⟩
  · exact ⟨rfl, rfl⟩

/-- C1 witness: the amended statement at the spec's concrete example
session. -/
theorem c1_witness :
    (fsSample.root = "") ∧ (fsSample.cache = some [oRoot, oSub1, oSub2]) ∧
    ((∃ es, fsSample.listDataverse (fun _ => none) "" none = .ok (es, fsSample) ∧
       (∀ o : Object, DirEntry.file o ∈ es ↔
          o ∈ [oRoot, oSub1, oSub2] ∧ (splitPath o.remote).1 = "") ∧
       (∀ d : String, DirEntry.dir d ∈ es ↔
          d ≠ "" ∧ hasSlash d = false ∧ ∃ o ∈ [oRoot, oSub1, oSub2], (splitPath o.remote).1 = d)) ∧
     (fsSample.listDataverse (fun _ => none) "" none
        = .ok ([DirEntry.file oRoot, DirEntry.dir "sub"], fsSample) ∧
      fsSample.listDataverse (fun _ => none) "sub" none
        = .ok ([DirEntry.file oSub1, DirEntry.file oSub2], fsSample))) :=
  ⟨rfl, rfl,
   c1_dataverse_dir_synthesis (fun _ => none) fsSample [oRoot, oSub1, oSub2] none rfl rfl⟩

end Doi
